import Mathlib

/-!
Verification development for the SEO comparison dashboard
(frontend `App.jsx` in its streaming and fetch variants, plus the
spec-described backend pipeline).  The definitions below are shallow
embeddings of the code: JSON values are modelled as an inductive type,
the React handlers as state-transition functions, and the crawler,
comparator and aggregator (whose code is not in the repository) are
modelled from the specification text.
-/

namespace SeoCompare

mutual

/-- JSON-like values as delivered to the client.  Numbers are modelled as
integers; none of the verified properties depends on numeric arithmetic. -/
inductive Json where
  | null
  | bool (b : Bool)
  | num (n : Int)
  | str (s : String)
  | arr (items : JsonArr)
  | obj (fields : JsonObj)
deriving DecidableEq

/-- A JSON array, as a list of JSON values. -/
inductive JsonArr where
  | nil
  | cons (head : Json) (tail : JsonArr)
deriving DecidableEq

/-- A JSON object, as an association list of fields. -/
inductive JsonObj where
  | nil
  | cons (key : String) (value : Json) (tail : JsonObj)
deriving DecidableEq

end

/-- Field lookup in a JSON object (first match). -/
def JsonObj.lookup : JsonObj → String → Option Json
  | .nil, _ => none
  | .cons k v rest, name => if k = name then some v else rest.lookup name

/-- The keys of a JSON object, in order. -/
def JsonObj.keys : JsonObj → List String
  | .nil => []
  | .cons k _ rest => k :: rest.keys

/-- The values of a JSON object, in order. -/
def JsonObj.values : JsonObj → List Json
  | .nil => []
  | .cons _ v rest => v :: rest.values

/-- The items of a JSON array as a `List`. -/
def JsonArr.toList : JsonArr → List Json
  | .nil => []
  | .cons x rest => x :: rest.toList

/-- JavaScript property access `o[name]`: looks the field up in an object,
`null` (standing for `undefined`) otherwise. -/
def getField : Json → String → Json
  | .obj fields, name => (fields.lookup name).getD .null
  | _, _ => .null

/-- `Object.keys(o)` on the model. -/
def objKeys : Json → List String
  | .obj fields => fields.keys
  | _ => []

/-- `Object.values(o)` on the model. -/
def objValues : Json → List Json
  | .obj fields => fields.values
  | _ => []

/-- An array value's items. -/
def asArr : Json → List Json
  | .arr items => items.toList
  | _ => []

/-- One row of the Strict Parameter Audit table as rendered by `App.jsx`
(lines 340-355): label, the two values, the status text, and whether the
status badge is shown in the green `Optimized` style. -/
structure DetailRowView where
  label : Json
  baseline : Json
  competitor : Json
  statusText : Json
  statusOptimized : Bool
deriving DecidableEq

/-- Renders one item of `comparison.details` exactly as the table body does. -/
def renderRow (item : Json) : DetailRowView :=
  { label := getField item "label"
    baseline := getField item "baseline"
    competitor := getField item "competitor"
    statusText := getField item "status"
    statusOptimized := getField item "status" == Json.str "Optimized" }

/-- Everything the results section of `App.jsx` displays from a comparison
result: the header URL, the three score cards (with the red/green icon choice
for tech debt), the radar chart labels and datasets, the AI-insights markdown
source, and the audit-table rows. -/
structure RenderView where
  headerUrl : Json
  baselineScore : Json
  competitorScore : Json
  techDebt : Json
  techDebtHigh : Bool
  radarLabels : List String
  radarBaselineData : List Json
  radarCompetitorData : List Json
  aiAnalysisText : Json
  tableRows : List DetailRowView
deriving DecidableEq

/-- The result section of `App.jsx` (lines 144-162 and 255-358) as a pure
function of the comparison object. -/
def render (comparison : Json) : RenderView :=
  { headerUrl := getField comparison "competitor_url"
    baselineScore := getField comparison "overall_score"
    competitorScore := getField comparison "competitor_score"
    techDebt := getField comparison "techDebt"
    techDebtHigh := getField comparison "techDebt" == Json.str "High"
    radarLabels := objKeys (getField comparison "categories")
    radarBaselineData := objValues (getField comparison "categories")
    radarCompetitorData := objValues (getField comparison "comp_categories")
    aiAnalysisText := getField comparison "ai_analysis"
    tableRows := (asArr (getField comparison "details")).map renderRow }

/-- The result fields the UI reads, per the external-interface contract. -/
def uiResultFields : List String :=
  ["competitor_url", "overall_score", "competitor_score", "categories",
   "comp_categories", "techDebt", "details", "ai_analysis"]

/-- The result fields other than `details`, which the UI consumes wholesale. -/
def uiDirectFields : List String :=
  ["competitor_url", "overall_score", "competitor_score", "categories",
   "comp_categories", "techDebt", "ai_analysis"]

/-- The four fields the UI reads from each row of `details`. -/
def rowProj (item : Json) : Json × Json × Json × Json :=
  (getField item "label", getField item "baseline",
   getField item "competitor", getField item "status")

/-- The `details` array of a result, restricted to the four row fields the
UI reads. -/
def detailsProj (comparison : Json) : List (Json × Json × Json × Json) :=
  (asArr (getField comparison "details")).map rowProj

/-- The rendering is sensitive to result field `f`: two results that agree on
every other UI field render differently. -/
def readsField (f : String) : Prop :=
  ∃ c c', (∀ g ∈ uiResultFields, g ≠ f → getField c g = getField c' g)
    ∧ render c ≠ render c'

/-- A row view is determined by the four projected row fields. -/
def rowOfProj : Json × Json × Json × Json → DetailRowView
  | (l, b, c, st) =>
    { label := l, baseline := b, competitor := c, statusText := st
      statusOptimized := st == Json.str "Optimized" }

lemma renderRow_eq_rowOfProj (item : Json) :
    renderRow item = rowOfProj (rowProj item) := rfl

lemma map_renderRow_eq (xs : List Json) :
    xs.map renderRow = (xs.map rowProj).map rowOfProj := by
  induction xs with
  | nil => rfl
  | cons x rest ih => simp [List.map_cons, ih, renderRow_eq_rowOfProj]

/-- C1: every successful comparison result consumed by the client is the
structured object `{competitor_url, overall_score, competitor_score,
categories, comp_categories, techDebt, details: [{label, baseline,
competitor, status}], ai_analysis}`; the UI reads each of these fields and no
others.  First conjunct: the rendering depends only on the listed fields (two
results agreeing on the seven direct fields and, row by row, on the four row
fields of `details`, render identically).  Second conjunct: every listed
field is actually read (for each field there are two results agreeing on all
the other fields that render differently). -/
theorem uiReadsExactlyResultFields :
    (∀ c c', (∀ f ∈ uiDirectFields, getField c f = getField c' f) →
        detailsProj c = detailsProj c' → render c = render c')
    ∧ ∀ f ∈ uiResultFields, readsField f := by
  constructor
  · intro c c' h hd
    have hcu := h "competitor_url" (by simp [uiDirectFields])
    have hos := h "overall_score" (by simp [uiDirectFields])
    have hcs := h "competitor_score" (by simp [uiDirectFields])
    have hcat := h "categories" (by simp [uiDirectFields])
    have hcc := h "comp_categories" (by simp [uiDirectFields])
    have htd := h "techDebt" (by simp [uiDirectFields])
    have hai := h "ai_analysis" (by simp [uiDirectFields])
    have hrows : (asArr (getField c "details")).map renderRow
        = (asArr (getField c' "details")).map renderRow := by
      rw [map_renderRow_eq, map_renderRow_eq]
      have : detailsProj c = detailsProj c' := hd
      simpa [detailsProj] using congrArg (List.map rowOfProj) this
    simp [render, hcu, hos, hcs, hcat, hcc, htd, hai, hrows]
  · intro f hf
    simp only [uiResultFields, List.mem_cons, List.not_mem_nil, or_false] at hf
    rcases hf with rfl | rfl | rfl | rfl | rfl | rfl | rfl | rfl
    · exact ⟨Json.obj (.cons "competitor_url" (.str "a") .nil),
        Json.obj (.cons "competitor_url" (.str "b") .nil), by decide, by decide⟩
    · exact ⟨Json.obj (.cons "overall_score" (.num 1) .nil),
        Json.obj (.cons "overall_score" (.num 2) .nil), by decide, by decide⟩
    · exact ⟨Json.obj (.cons "competitor_score" (.num 1) .nil),
        Json.obj (.cons "competitor_score" (.num 2) .nil), by decide, by decide⟩
    · exact ⟨Json.obj (.cons "categories"
          (Json.obj (.cons "Technical" (.num 1) .nil)) .nil),
        Json.obj (.cons "categories"
          (Json.obj (.cons "Technical" (.num 2) .nil)) .nil), by decide, by decide⟩
    · exact ⟨Json.obj (.cons "comp_categories"
          (Json.obj (.cons "Technical" (.num 1) .nil)) .nil),
        Json.obj (.cons "comp_categories"
          (Json.obj (.cons "Technical" (.num 2) .nil)) .nil), by decide, by decide⟩
    · exact ⟨Json.obj (.cons "techDebt" (.str "High") .nil),
        Json.obj (.cons "techDebt" (.str "Low") .nil), by decide, by decide⟩
    · exact ⟨Json.obj (.cons "details"
          (Json.arr (.cons (Json.obj (.cons "label" (.str "a") .nil)) .nil)) .nil),
        Json.obj (.cons "details"
          (Json.arr (.cons (Json.obj (.cons "label" (.str "b") .nil)) .nil)) .nil),
        by decide, by decide⟩
    · exact ⟨Json.obj (.cons "ai_analysis" (.str "a") .nil),
        Json.obj (.cons "ai_analysis" (.str "b") .nil), by decide, by decide⟩

/-- Witness for C1: two concrete results that agree on every UI field (one
carries an extra field the UI never reads) render identically. -/
theorem uiReadsExactlyResultFields_witness :
    render (Json.obj (.cons "competitor_url" (.str "u") (.cons "unused" (.num 1) .nil)))
      = render (Json.obj (.cons "unused" (.num 2) (.cons "competitor_url" (.str "u") .nil))) :=
  uiReadsExactlyResultFields.1 _ _ (by decide) (by decide)

/-! ### Streaming client (`src/frontend/src/App.jsx`) -/

/-- The React state of the streaming client that the comparison flow touches:
the form URL, the loading flag, the current comparison result, the status
line, the error line and the live-crawl log list. -/
structure AppState where
  url : String
  isLoading : Bool
  comparison : Option Json
  stateStatus : String
  stateError : String
  logs : List Json
deriving DecidableEq

/-- A parsed message of the progress-event stream, as dispatched on
`data.type` in `evtSource.onmessage`; `malformed` stands for an event whose
`JSON.parse` throws or whose type matches no branch. -/
inductive StreamData where
  | statusEv (message : String)
  | logEv (entry : Json)
  | resultEv (data : Json)
  | errorEv (message : String)
  | malformed
deriving DecidableEq

/-- The `evtSource.onmessage` handler of `App.jsx` (lines 84-102) as a state
transition.  Returns the new state and whether the stream is still open
afterwards.  On a `result` event the handler stores the data, ends loading
and calls `evtSource.close()`.  On an `error` event the handler does
`throw new Error(data.message)` inside the same `try` block; the surrounding
`catch` only logs `Stream parse error` to the console, so the state is
unchanged and the stream stays open. -/
def onMessage (s : AppState) (d : StreamData) : AppState × Bool :=
  match d with
  | .statusEv m => ({ s with stateStatus := m }, true)
  | .logEv entry => ({ s with logs := s.logs ++ [entry] }, true)
  | .resultEv data => ({ s with comparison := some data, isLoading := false }, false)
  | .errorEv _ => (s, true)
  | .malformed => (s, true)

/-- Delivery of a sequence of stream events: each event is handed to
`onMessage` while the stream is open; a closed `EventSource` delivers
nothing. -/
def processEvents (s : AppState) (streamOpen : Bool) : List StreamData → AppState × Bool
  | [] => (s, streamOpen)
  | e :: rest =>
    if streamOpen then
      let (s', o') := onMessage s e
      processEvents s' o' rest
    else
      processEvents s streamOpen rest

lemma processEvents_closed (s : AppState) (evs : List StreamData) :
    processEvents s false evs = (s, false) := by
  induction evs with
  | nil => rfl
  | cons e rest ih => simpa [processEvents] using ih

/-- A concrete in-flight state: the user submitted a URL and the stream has
delivered only non-terminal events so far. -/
def inFlightState : AppState :=
  { url := "https://compet.example", isLoading := true, comparison := none,
    stateStatus := "Crawling...", stateError := "", logs := [] }

/-- C2 (code bug): a terminal `error` stream event carrying a human-readable
message is swallowed by the streaming client.  At the concrete in-flight
state, delivering `{type: "error", message: "CrawlError: Unreachable"}`
leaves the state completely unchanged — `error` stays empty, so no
user-visible error is surfaced, `isLoading` stays `true`, so the loading
state does not terminate — and the stream stays open.  The thrown
`Error(data.message)` is caught by the handler's own `catch`, which only
writes to the console. -/
theorem errorEventIsSwallowed :
    onMessage inFlightState (.errorEv "CrawlError: Unreachable")
      = (inFlightState, true)
    ∧ (onMessage inFlightState (.errorEv "CrawlError: Unreachable")).1.stateError = ""
    ∧ (onMessage inFlightState (.errorEv "CrawlError: Unreachable")).1.isLoading = true := by
  refine ⟨rfl, rfl, rfl⟩

/-- C3 counterexample: the claim says that once the client has processed a
terminal event (`result` or `error`) it closes the stream and no later event
is processed.  Concretely, after the terminal `error` event the stream is
still open and a subsequent `result` event is processed and takes effect
(the stored comparison changes from `none` to the result payload), so two
terminal events take effect in one request. -/
theorem terminalErrorDoesNotStopProcessing :
    (processEvents inFlightState true
        [.errorEv "boom", .resultEv (.str "r")]).1.comparison = some (.str "r")
    ∧ (processEvents inFlightState true [.errorEv "boom"]).1.comparison = none
    ∧ (processEvents inFlightState true [.errorEv "boom"]).2 = true := by
  refine ⟨rfl, rfl, rfl⟩

/-- C3 as amended: only the `result` terminal event closes the stream.  After
a processed `result` event the stream is closed and no subsequent event is
ever processed (the run on `result d :: rest` equals the run on `[result d]`
for every tail), while after an `error` event the stream remains open and the
state is unchanged. -/
theorem resultClosesStreamErrorDoesNot :
    (∀ (s : AppState) (d : Json) (rest : List StreamData),
      processEvents s true (.resultEv d :: rest)
        = ({ s with comparison := some d, isLoading := false }, false))
    ∧ ∀ (s : AppState) (m : String), onMessage s (.errorEv m) = (s, true) := by
  constructor
  · intro s d rest
    simp [processEvents, onMessage, processEvents_closed]
  · intro s m
    rfl

/-! ### `handleCompare` of the streaming client -/

/-- The streaming client together with the browser-side stream bookkeeping:
the `eventSourceRef` ref and the identifiers of the `EventSource` connections
currently open. -/
structure ClientState where
  app : AppState
  eventSourceRef : Option Nat
  openStreams : List Nat
deriving DecidableEq

/-- The synchronous part of `handleCompare` in `App.jsx` (lines 64-82): on an
empty URL it returns at once; otherwise it resets the loading flag, error,
status, logs and comparison, closes the previously referenced `EventSource`
if any, and opens a new one (identified by `newId`).  Returns the new client
state and whether a request (a new stream) was issued. -/
def handleCompare (c : ClientState) (newId : Nat) : ClientState × Bool :=
  if c.app.url = "" then (c, false)
  else
    let app' := { c.app with
      isLoading := true
      stateError := ""
      stateStatus := "Initializing..."
      logs := []
      comparison := none }
    let afterClose :=
      match c.eventSourceRef with
      | some i => c.openStreams.erase i
      | none => c.openStreams
    ({ app := app'
       eventSourceRef := some newId
       openStreams := newId :: afterClose }, true)

/-- C9: starting a new comparison with a non-empty URL clears the previous
comparison result, log list and error message, and closes the previously
referenced stream before opening the new one: assuming the only stream
possibly open beforehand is the referenced one, afterwards exactly the new
stream is open.  The cleared comparison together with `isLoading = true`
means no stale result is displayed while the new comparison is in flight. -/
theorem newCompareResetsStateAndStreams (c : ClientState) (newId : Nat)
    (hurl : c.app.url ≠ "") (hopen : c.openStreams = c.eventSourceRef.toList) :
    (handleCompare c newId).1.app.comparison = none
    ∧ (handleCompare c newId).1.app.logs = []
    ∧ (handleCompare c newId).1.app.stateError = ""
    ∧ (handleCompare c newId).1.app.isLoading = true
    ∧ (handleCompare c newId).1.openStreams = [newId]
    ∧ (handleCompare c newId).1.eventSourceRef = some newId := by
  cases c with
  | mk app ref streams =>
    cases ref with
    | none =>
      simp_all [handleCompare, Option.toList]
    | some i =>
      simp_all [handleCompare, Option.toList, List.erase_cons_head]

/-- A concrete client state holding a finished comparison and one open
stream, just before the user submits a second URL. -/
def staleClient : ClientState :=
  { app := { inFlightState with
      comparison := some (.str "old")
      logs := [.str "l"]
      stateError := "old error" }
    eventSourceRef := some 3
    openStreams := [3] }

/-- Witness for C9 at a concrete client state with one open stream. -/
theorem newCompareResetsStateAndStreams_witness :
    (handleCompare staleClient 7).1.openStreams = [7]
    ∧ (handleCompare staleClient 7).1.app.comparison = none :=
  ⟨(newCompareResetsStateAndStreams staleClient 7 (by decide) (by decide)).2.2.2.2.1,
   (newCompareResetsStateAndStreams staleClient 7 (by decide) (by decide)).1⟩

/-! ### Fetch-based client (`src/unnamed/part_000`, the non-streaming `App.jsx`) -/

/-- The React state of the fetch-based client that `handleCompare` touches. -/
structure FetchAppState where
  url : String
  isLoading : Bool
  comparison : Option Json
  stateStatus : String
  stateError : String
deriving DecidableEq

/-- How the `fetch` of the comparison request ends, as observed by the
client: the 10-minute `AbortController` fired (`aborted`), the promise was
rejected with some other error (`netError`, carrying the exception message),
or a response arrived, with its HTTP status, whether its content type
includes `application/json`, the optional `detail` string of its JSON body
(`none` when the field is absent or not usable), and its parsed body. -/
inductive FetchOutcome where
  | aborted
  | netError (message : String)
  | response (statusCode : Nat) (jsonContentType : Bool) (detail : Option String) (body : Json)
deriving DecidableEq

/-- `res.ok`: HTTP status in the 2xx range. -/
def resOk (statusCode : Nat) : Bool :=
  decide (200 ≤ statusCode ∧ statusCode < 300)

/-- Error message of the client's own 10-minute abort. -/
def requestTimedOutMsg : String :=
  "Request Timed Out: The audit took longer than 10 minutes."

/-- Error message of a non-JSON 504 response. -/
def crawlTimeoutMsg : String :=
  "Crawl Timeout: The site is too large or slow for an instant audit. Try another domain."

/-- Error message of any other non-JSON error response. -/
def serverErrorMsg (statusCode : Nat) : String :=
  "Server Error (" ++ toString statusCode ++ "): Please check backend logs."

/-- Error message of a 2xx response that is not JSON. -/
def invalidDataMsg : String :=
  "Invalid Data: Received an unexpected response format from server."

/-- Fallback when a JSON error body has no usable `detail`. -/
def apiErrorFallback : String := "API Error"

/-- The error message (if any) the fetch client's `handleCompare`
(`part_000` lines 63-101) derives from the request outcome, following its
`try`/`catch` branches: abort gives the 10-minute message; a non-2xx JSON
response gives `err.detail || 'API Error'`; a non-2xx non-JSON 504 gives the
crawl-timeout message, any other non-JSON error status the generic server
error; a 2xx non-JSON response gives the invalid-data message; a 2xx JSON
response succeeds (`none`).  Any other rejection reports the exception's own
message. -/
def fetchErrorMsg : FetchOutcome → Option String
  | .aborted => some requestTimedOutMsg
  | .netError m => some m
  | .response statusCode ctJson detail _ =>
    if !resOk statusCode then
      if ctJson then
        some (match detail with
          | some d => if d = "" then apiErrorFallback else d
          | none => apiErrorFallback)
      else if statusCode = 504 then some crawlTimeoutMsg
      else some (serverErrorMsg statusCode)
    else if !ctJson then some invalidDataMsg
    else none

/-- The parsed body the fetch client stores on success. -/
def fetchSuccessBody : FetchOutcome → Option Json
  | .response statusCode ctJson _ body =>
    if resOk statusCode && ctJson then some body else none
  | _ => none

/-- The fetch client's `handleCompare` as a state transition: the empty-URL
guard, the optimistic status update, then either the error or the success
path, and the `finally` block clearing the loading flag and status. -/
def fetchCompare (s : FetchAppState) (o : FetchOutcome) : FetchAppState :=
  if s.url = "" then s
  else
    let running := { s with
      isLoading := true
      stateError := ""
      stateStatus := "Running deep crawl & 100-parameter analysis..." }
    let settled :=
      match fetchErrorMsg o with
      | some m => { running with stateError := m }
      | none => { running with comparison := fetchSuccessBody o }
    { settled with isLoading := false, stateStatus := "" }

/-- The outcomes the fetch client itself treats as timeouts: its own abort,
and a 504 response without a JSON body. -/
def isClientTimeout : FetchOutcome → Bool
  | .aborted => true
  | .response statusCode ctJson _ _ => statusCode == 504 && !ctJson
  | _ => false

/-- Outcomes whose reported message is taken verbatim from outside the
client: a JSON error body with a non-empty `detail`, or a rejected promise's
exception message. -/
def passesThroughServerMsg : FetchOutcome → Bool
  | .netError _ => true
  | .response statusCode ctJson detail _ =>
    !resOk statusCode && ctJson
      && (match detail with
          | some d => !(d == "")
          | none => false)
  | .aborted => false

/-- C4 counterexample: the claim says every request that exceeds the timeout
bound — in particular every HTTP 504 response — yields a timeout-specific
message distinct from the message of any other server error.  But a 504
response whose body is JSON is reported through the JSON-error branch: with
no `detail` it yields the generic `API Error`, exactly the message of a 500
JSON error response, so the reported message is neither timeout-specific nor
distinct. -/
theorem timeout504JsonNotDistinct :
    fetchErrorMsg (.response 504 true none .null) = some apiErrorFallback
    ∧ fetchErrorMsg (.response 500 true none .null) = some apiErrorFallback := by
  refine ⟨rfl, rfl⟩

lemma serverErrorMsg_ne_crawlTimeout (s : Nat) : serverErrorMsg s ≠ crawlTimeoutMsg := by
  intro h
  have h2 := congrArg (fun t => t.data.head?) h
  simp only [serverErrorMsg, crawlTimeoutMsg, String.data_append] at h2
  simp at h2

lemma serverErrorMsg_ne_requestTimedOut (s : Nat) : serverErrorMsg s ≠ requestTimedOutMsg := by
  intro h
  have h2 := congrArg (fun t => t.data.head?) h
  simp only [serverErrorMsg, requestTimedOutMsg, String.data_append] at h2
  simp at h2

lemma fetchErrorMsg_of_timeout (t : FetchOutcome) (ht : isClientTimeout t = true) :
    fetchErrorMsg t = some crawlTimeoutMsg ∨ fetchErrorMsg t = some requestTimedOutMsg := by
  cases t with
  | aborted => exact Or.inr rfl
  | netError m => simp [isClientTimeout] at ht
  | response statusCode ctJson detail body =>
    simp only [isClientTimeout, Bool.and_eq_true, beq_iff_eq,
      Bool.not_eq_eq_eq_not, Bool.not_true] at ht
    obtain ⟨rfl, rfl⟩ := ht
    left
    simp [fetchErrorMsg, resOk]

lemma fetchErrorMsg_of_other (o : FetchOutcome) (ho : isClientTimeout o = false)
    (hp : passesThroughServerMsg o = false) :
    fetchErrorMsg o = none ∨ fetchErrorMsg o = some invalidDataMsg
    ∨ fetchErrorMsg o = some apiErrorFallback
    ∨ ∃ s, fetchErrorMsg o = some (serverErrorMsg s) := by
  cases o with
  | aborted => simp [isClientTimeout] at ho
  | netError m => simp [passesThroughServerMsg] at hp
  | response statusCode ctJson detail body =>
    by_cases hok : resOk statusCode = true
    · cases ctJson
      · exact Or.inr (Or.inl (by simp [fetchErrorMsg, hok]))
      · exact Or.inl (by simp [fetchErrorMsg, hok])
    · cases ctJson
      · by_cases h504 : statusCode = 504
        · subst h504
          simp [isClientTimeout] at ho

        · exact Or.inr (Or.inr (Or.inr ⟨statusCode, by
            simp [fetchErrorMsg, hok, h504]⟩))
      · refine Or.inr (Or.inr (Or.inl ?_))
        cases detail with
        | none => simp [fetchErrorMsg, hok]
        | some d =>
          have hd : d = "" := by
            by_contra hne
            have htrue : passesThroughServerMsg
                (.response statusCode true (some d) body) = true := by
              simp [passesThroughServerMsg, hok, hne]
            rw [hp] at htrue
            exact Bool.noConfusion htrue
          subst hd
          simp [fetchErrorMsg, hok]

/-- C4 as amended: for the timeouts the client actually detects (its own
10-minute abort and a non-JSON 504), the reported message is distinct from
the message reported for any other server error whose text the client
constructs itself.  Messages passed through verbatim from outside (a JSON
error body's non-empty `detail`, a rejected promise's message) are excluded:
the server controls those strings, and a 504 served with a JSON body is
reported via that branch rather than with the timeout message. -/
theorem clientTimeoutMsgDistinct (o t : FetchOutcome)
    (ht : isClientTimeout t = true) (ho : isClientTimeout o = false)
    (hp : passesThroughServerMsg o = false) :
    fetchErrorMsg o ≠ fetchErrorMsg t := by
  rcases fetchErrorMsg_of_timeout t ht with hmsg | hmsg <;> rw [hmsg] <;>
    rcases fetchErrorMsg_of_other o ho hp with h | h | h | ⟨s, h⟩ <;> rw [h]
  · decide
  · decide
  · decide
  · exact fun hc => serverErrorMsg_ne_crawlTimeout s (Option.some.inj hc)
  · decide
  · decide
  · decide
  · exact fun hc => serverErrorMsg_ne_requestTimedOut s (Option.some.inj hc)

/-- Witness for the amended C4: a plain 500 error page is reported with a
message different from the non-JSON 504's crawl-timeout message. -/
theorem clientTimeoutMsgDistinct_witness :
    fetchErrorMsg (.response 500 false none .null)
      ≠ fetchErrorMsg (.response 504 false none .null) :=
  clientTimeoutMsgDistinct (.response 500 false none .null)
    (.response 504 false none .null) (by decide) (by decide) (by decide)

/-- C10: with an empty URL, submitting the form is a no-op in both clients —
the streaming `handleCompare` returns before touching any state or opening a
stream (no request issued), and the fetch client's `handleCompare` likewise
returns with the loading flag, error, status and comparison unchanged. -/
theorem emptyUrlIsNoOp (c : ClientState) (newId : Nat)
    (s : FetchAppState) (o : FetchOutcome)
    (hc : c.app.url = "") (hs : s.url = "") :
    handleCompare c newId = (c, false) ∧ fetchCompare s o = s := by
  constructor
  · simp [handleCompare, hc]
  · simp [fetchCompare, hs]

/-- Witness for C10 at concrete states with an empty URL field. -/
theorem emptyUrlIsNoOp_witness :
    handleCompare { app := { inFlightState with url := "" }
                    eventSourceRef := none
                    openStreams := [] } 5
      = ({ app := { inFlightState with url := "" }
           eventSourceRef := none
           openStreams := [] }, false)
    ∧ fetchCompare { url := "", isLoading := false, comparison := none,
                     stateStatus := "", stateError := "" } .aborted
      = { url := "", isLoading := false, comparison := none,
          stateStatus := "", stateError := "" } :=
  emptyUrlIsNoOp _ 5 _ .aborted rfl rfl

/-! ### Comparator (modelled from the spec) -/

/-- Per-parameter comparison status. -/
inductive ParamStatus where
  | Optimized
  | NeedsImprovement
deriving DecidableEq

/-- Modelled from the spec: the Comparator's per-parameter status assignment
(§4.5); the comparator's code is not under `src/`.  For each Parameter the
status is `Optimized` if the competitor's normalized outcome is at least the
baseline's (a tie favors `Optimized`), else `Needs-Improvement`.  Normalized
outcomes are 0-100 values, modelled as rationals. -/
def paramStatus (baselineOutcome competitorOutcome : ℚ) : ParamStatus :=
  if baselineOutcome ≤ competitorOutcome then .Optimized else .NeedsImprovement

/-- C5: the comparator assigns `Optimized` exactly when the competitor's
normalized outcome is at least the baseline's, and in particular equal
outcomes are assigned `Optimized`. -/
theorem paramStatusOptimizedIffGe :
    (∀ baselineOutcome competitorOutcome : ℚ,
      paramStatus baselineOutcome competitorOutcome = .Optimized
        ↔ baselineOutcome ≤ competitorOutcome)
    ∧ ∀ outcome : ℚ, paramStatus outcome outcome = .Optimized := by
  constructor
  · intro b c
    by_cases h : b ≤ c <;> simp [paramStatus, h]
  · intro outcome
    simp [paramStatus]

/-! ### Technical-debt classification (modelled from the spec) -/

/-- Technical-debt level of a site. -/
inductive DebtLevel where
  | Low
  | Medium
  | High
deriving DecidableEq

/-- Modelled from the spec: the Aggregator's technical-debt classification
(§4.4); the aggregator's code is not under `src/`.  A threshold function of
the overall score (0-100, modelled as a rational) and of the count of
critical (YMYL/Technical-category) failing parameters, with the critical
count cutoff `critCutoff` as the configurable `N`: High if the overall score
is below 50 or at least `critCutoff` critical parameters fail, Medium if the
overall score is below 75, Low otherwise. -/
def techDebtLevel (overall : ℚ) (criticalFailures critCutoff : Nat) : DebtLevel :=
  if overall < 50 ∨ critCutoff ≤ criticalFailures then .High
  else if overall < 75 then .Medium
  else .Low

/-- C6: the technical-debt level is the deterministic threshold
classification of the overall score and the critical-failure count — the
three levels are characterized exactly by the spec's thresholds — and in
particular a competitor with overall score 60 and fewer than `N` critical
failures is classified Medium. -/
theorem techDebtLevelThresholds :
    (∀ (overall : ℚ) (criticalFailures critCutoff : Nat),
      (techDebtLevel overall criticalFailures critCutoff = .High
        ↔ overall < 50 ∨ critCutoff ≤ criticalFailures)
      ∧ (techDebtLevel overall criticalFailures critCutoff = .Medium
        ↔ ¬(overall < 50 ∨ critCutoff ≤ criticalFailures) ∧ overall < 75)
      ∧ (techDebtLevel overall criticalFailures critCutoff = .Low
        ↔ ¬(overall < 50 ∨ critCutoff ≤ criticalFailures) ∧ ¬overall < 75))
    ∧ ∀ criticalFailures critCutoff : Nat, criticalFailures < critCutoff →
        techDebtLevel 60 criticalFailures critCutoff = .Medium := by
  constructor
  · intro overall criticalFailures critCutoff
    by_cases h1 : overall < 50 ∨ critCutoff ≤ criticalFailures <;>
      by_cases h2 : overall < 75 <;> simp [techDebtLevel, h1, h2]
  · intro criticalFailures critCutoff h
    have h1 : ¬((60 : ℚ) < 50 ∨ critCutoff ≤ criticalFailures) := by
      push_neg
      exact ⟨by norm_num, h⟩
    simp [techDebtLevel, h1]
    norm_num

/-- Witness for C6: overall score 60 with no critical failures and the
cutoff at 5 is classified Medium. -/
theorem techDebtLevelThresholds_witness :
    techDebtLevel 60 0 5 = .Medium :=
  techDebtLevelThresholds.2 0 5 (by norm_num)

/-! ### Site Crawler (modelled from the spec) -/

/-- Modelled from the spec: the URL normalization of the Crawler's visited
set (§4.2) — scheme+host+path kept, query and fragment stripped; the
crawler's code is not under `src/`. -/
def normalizeUrl (u : String) : String :=
  String.mk (u.data.takeWhile (fun c => !(c == '?' || c == '#')))

/-- Modelled from the spec: the Site Crawler's breadth-first traversal
(§4.2); the crawler's code is not under `src/`.  The frontier holds
(URL, depth) pairs; `visited` the normalized URLs already fetched; `fetched`
the fetched pages in reverse order.  `links` gives the links discovered on a
page and `inDomain` abstracts the root-host check (out-of-domain links are
discovered but not followed).  Traversal stops when the frontier is
exhausted or `maxPages` pages have been fetched; links are enqueued, at
depth one deeper, only from pages lying strictly below `maxDepth`, and a
page whose normalized URL was already visited is skipped. -/
def crawlGo (links : String → List String) (inDomain : String → Bool)
    (maxPages maxDepth : Nat) :
    List (String × Nat) → List String → List (String × Nat) → List (String × Nat)
  | [], _, fetched => fetched.reverse
  | (u, d) :: rest, visited, fetched =>
    if _h : maxPages ≤ fetched.length then fetched.reverse
    else if visited.contains (normalizeUrl u) then
      crawlGo links inDomain maxPages maxDepth rest visited fetched
    else
      crawlGo links inDomain maxPages maxDepth
        (rest ++ (if d < maxDepth then
          ((links u).filter inDomain).map (fun v => (v, d + 1)) else []))
        (normalizeUrl u :: visited) ((u, d) :: fetched)
termination_by frontier _ fetched => (maxPages - fetched.length, frontier.length)
decreasing_by
  · apply Prod.Lex.right
    simp
  · apply Prod.Lex.left
    simp only [List.length_cons]
    omega

/-- A whole crawl from a root URL, which enters the frontier at depth 0. -/
def crawl (links : String → List String) (inDomain : String → Bool)
    (root : String) (maxPages maxDepth : Nat) : List (String × Nat) :=
  crawlGo links inDomain maxPages maxDepth [(root, 0)] [] []

lemma crawlGo_bounds (links : String → List String) (inDomain : String → Bool)
    (maxPages maxDepth : Nat) :
    ∀ frontier visited fetched,
      fetched.length ≤ maxPages →
      (∀ p ∈ frontier, p.2 ≤ maxDepth) →
      (∀ p ∈ fetched, p.2 ≤ maxDepth) →
      (crawlGo links inDomain maxPages maxDepth frontier visited fetched).length ≤ maxPages
      ∧ ∀ p ∈ crawlGo links inDomain maxPages maxDepth frontier visited fetched,
          p.2 ≤ maxDepth := by
  intro frontier visited fetched
  induction frontier, visited, fetched using crawlGo.induct links inDomain maxPages maxDepth with
  | case1 x fetched =>
    intro h1 _h2 h3
    rw [crawlGo]
    refine ⟨by simpa using h1, by simpa using h3⟩
  | case2 u d rest visited fetched hstop =>
    intro h1 _h2 h3
    rw [crawlGo]
    simp only [dif_pos hstop]
    refine ⟨by simpa using h1, by simpa using h3⟩
  | case3 u d rest visited fetched hstop hvis ih =>
    intro h1 h2 h3
    rw [crawlGo]
    simp only [dif_neg hstop, if_pos hvis]
    exact ih h1 (fun p hp => h2 p (List.mem_cons_of_mem _ hp)) h3
  | case4 u d rest visited fetched hstop hvis ih =>
    intro h1 h2 h3
    rw [crawlGo]
    simp only [dif_neg hstop, if_neg hvis]
    refine ih (by simp only [List.length_cons]; omega) ?_ ?_
    · intro p hp
      rcases List.mem_append.mp hp with hp | hp
      · exact h2 p (List.mem_cons_of_mem _ hp)
      · split at hp
        · rcases List.mem_map.mp hp with ⟨v, _hv, rfl⟩
          simpa using ‹d < maxDepth›
        · simp at hp
    · intro p hp
      rcases List.mem_cons.mp hp with rfl | hp
      · exact h2 (u, d) (List.mem_cons_self _ _)
      · exact h3 p hp

lemma crawlGo_nodup (links : String → List String) (inDomain : String → Bool)
    (maxPages maxDepth : Nat) :
    ∀ frontier visited fetched,
      ((fetched.map (fun p => normalizeUrl p.1)).Nodup) →
      (∀ p ∈ fetched, normalizeUrl p.1 ∈ visited) →
      ((crawlGo links inDomain maxPages maxDepth frontier visited fetched).map
        (fun p => normalizeUrl p.1)).Nodup := by
  intro frontier visited fetched
  induction frontier, visited, fetched using crawlGo.induct links inDomain maxPages maxDepth with
  | case1 x fetched =>
    intro h1 _h2
    rw [crawlGo]
    simpa using h1
  | case2 u d rest visited fetched hstop =>
    intro h1 _h2
    rw [crawlGo]
    simp only [dif_pos hstop]
    simpa using h1
  | case3 u d rest visited fetched hstop hvis ih =>
    intro h1 h2
    rw [crawlGo]
    simp only [dif_neg hstop, if_pos hvis]
    exact ih h1 h2
  | case4 u d rest visited fetched hstop hvis ih =>
    intro h1 h2
    rw [crawlGo]
    simp only [dif_neg hstop, if_neg hvis]
    refine ih ?_ ?_
    · refine List.nodup_cons.mpr ⟨?_, h1⟩
      intro hmem
      rcases List.mem_map.mp hmem with ⟨p, hp, hnorm⟩
      have hb : normalizeUrl p.1 = normalizeUrl u := hnorm
      have hv : normalizeUrl p.1 ∈ visited := h2 p hp
      have hnv : normalizeUrl u ∉ visited := by simpa using hvis
      exact hnv (hb ▸ hv)
    · intro p hp
      rcases List.mem_cons.mp hp with rfl | hp
      · exact List.mem_cons_self _ _
      · exact List.mem_cons_of_mem _ (h2 p hp)

/-- C7: for every link graph and bounds, the crawl fetches at most
`maxPages` pages, and every fetched page was discovered at a depth of at
most `maxDepth` (so a link discovered only beyond `maxDepth` is never
followed).  The traversal itself proceeds until the first of the stopping
conditions: the recursion ends exactly when the frontier is exhausted or
`maxPages` pages are fetched, and depth-exceeding links never enter the
frontier. -/
theorem crawlRespectsBounds :
    ∀ (links : String → List String) (inDomain : String → Bool)
      (root : String) (maxPages maxDepth : Nat),
      (crawl links inDomain root maxPages maxDepth).length ≤ maxPages
      ∧ ∀ p ∈ crawl links inDomain root maxPages maxDepth, p.2 ≤ maxDepth := by
  intro links inDomain root maxPages maxDepth
  exact crawlGo_bounds links inDomain maxPages maxDepth [(root, 0)] [] []
    (by simp) (by simp) (by simp)

/-- Witness for C7 on a concrete graph and bounds: the page-count bound
holds, and the root — a fetched page — was discovered within the depth
bound. -/
theorem crawlRespectsBounds_witness :
    (crawl (fun _ => ["http://a/A?q=1"]) (fun _ => true) "http://a/A" 3 2).length ≤ 3
    ∧ (("http://a/A", 0) : String × Nat).2 ≤ 2 :=
  ⟨(crawlRespectsBounds (fun _ => ["http://a/A?q=1"]) (fun _ => true) "http://a/A" 3 2).1,
   (crawlRespectsBounds (fun _ => ["http://a/A?q=1"]) (fun _ => true) "http://a/A" 3 2).2
     ("http://a/A", 0)
     (by simp [crawl, crawlGo, normalizeUrl])⟩

/-- The two-page cyclic link graph A→B→A. -/
def cycleLinks : String → List String :=
  fun u => if u = "http://a/A" then ["http://a/B"]
    else if u = "http://a/B" then ["http://a/A"] else []

/-- C8: on every link graph — cyclic ones included — the crawl terminates
(the traversal function is total, by the lexicographic measure of remaining
page budget and frontier length) and the visited set of normalized URLs
ensures every normalized URL is fetched at most once (the fetched list has
no duplicate normalized URLs).  On the concrete cycle A→B→A the crawl
evaluates to exactly one fetch of each page. -/
theorem crawlNoDuplicateFetches :
    (∀ (links : String → List String) (inDomain : String → Bool)
      (root : String) (maxPages maxDepth : Nat),
      ((crawl links inDomain root maxPages maxDepth).map
        (fun p => normalizeUrl p.1)).Nodup)
    ∧ crawl cycleLinks (fun _ => true) "http://a/A" 10 5
        = [("http://a/A", 0), ("http://a/B", 1)] := by
  constructor
  · intro links inDomain root maxPages maxDepth
    exact crawlGo_nodup links inDomain maxPages maxDepth [(root, 0)] [] []
      (by simp) (by simp)
  · simp [crawl, crawlGo, cycleLinks, normalizeUrl]

end SeoCompare
